import Mathlib

/-!
Shallow embedding of `src/unmanic/libs/notifications.py` (class `Notifications`).

The Python class is a `queue.Queue` subclass holding notification dicts plus a
parallel `set` of known uuids (`all_items`), all mutations guarded by one
re-entrant lock.  We model:

* a notification dict as a structure of optional fields (a field is `none`
  when the key is absent from the dict);
* the queue contents as a `List Item` (front of the queue first);
* the Python `set` `all_items` as a duplicate-free `List String` with
  membership-guarded insertion and `erase` for removal — only membership is
  ever observed;
* `Queue.put_nowait` including its `queue.Full` behaviour for a bounded queue
  (`maxsize = 0` models an unbounded queue, Python's default);
* Python exceptions as an explicit error component threaded through each
  operation's result, together with the state at the moment the exception
  escapes (the lock is released, partial mutations persist);
* `str(uuid.uuid4())` as an explicit `gen : String` argument supplied to
  `add`/`update` (the generated id); freshness of the generated id is a
  hypothesis where a claim needs it.

Spec-name correspondence: spec `id`/`kind`/`labelKey` are source
`uuid`/`type`/`label`; spec `ValidationError`/`InvalidKind` are the two
`Exception`s raised by `__validate_item`; spec `order`/`known` are the queue
contents and `all_items`.
-/

namespace Unmanic

/-- A notification message dict.  A field holds `none` when the key is absent.
`navigation` is an opaque payload never inspected by the core; we model it as
an optional opaque string. -/
structure Item where
  uuid : Option String
  type : Option String
  icon : Option String
  label : Option String
  message : Option String
  navigation : Option String
deriving DecidableEq, Repr

/-- The errors the Python code can raise: the two validation `Exception`s of
`__validate_item` (spec names: `ValidationError` naming the missing key, and
`InvalidKind` naming the offending `type` value) and `queue.Full` raised by
`Queue.put_nowait` on a bounded queue. -/
inductive NotifError where
  | missingKey : String → NotifError
  | invalidType : Option String → NotifError
  | full : NotifError
deriving DecidableEq, Repr

/-- State of the `Notifications` store: the `Queue`'s `maxsize` (0 models
unbounded, the default), the queue contents in order (`order` in the spec) and
the `all_items` uuid set (`known` in the spec). -/
structure Notifications where
  maxsize : Nat
  order : List Item
  all_items : List String
deriving DecidableEq, Repr

/-- `Notifications._init`: a fresh store is empty. -/
def init (maxsize : Nat) : Notifications :=
  { maxsize := maxsize, order := [], all_items := [] }

/-- Python `set.add`: insert if not already a member. -/
def setAdd (xs : List String) (u : String) : List String :=
  if u ∈ xs then xs else xs ++ [u]

/-- Python `set.remove` under the code's `item_uuid in self.all_items` guard:
delete the member. -/
def setRemove (xs : List String) (u : String) : List String :=
  xs.erase u

/-- The required keys checked by `__validate_item`, in source order. -/
def requiredKeys : List String :=
  ["type", "icon", "label", "message", "navigation"]

/-- The valid values for the `type` key. -/
def validTypes : List String :=
  ["error", "warning", "success", "info"]

/-- Look up a required key in an item, as Python's `key not in item` test
sees it (`true` iff the key is absent). -/
def keyAbsent (item : Item) : String → Bool
  | "type" => item.type.isNone
  | "icon" => item.icon.isNone
  | "label" => item.label.isNone
  | "message" => item.message.isNone
  | "navigation" => item.navigation.isNone
  | _ => false

/-- `Notifications.__validate_item`: check the five required keys in order,
raising on the first missing one, then check `type` is a valid value. -/
def validate_item (item : Item) : Except NotifError Unit :=
  if item.type.isNone then .error (.missingKey "type")
  else if item.icon.isNone then .error (.missingKey "icon")
  else if item.label.isNone then .error (.missingKey "label")
  else if item.message.isNone then .error (.missingKey "message")
  else if item.navigation.isNone then .error (.missingKey "navigation")
  else if item.type ∈ validTypes.map some then .ok ()
  else .error (.invalidType item.type)

/-- `Queue.put_nowait` (via `__add_to_queue_locked`): raises `queue.Full`
when a bounded queue is at capacity, else appends at the tail. -/
def put_nowait (s : Notifications) (item : Item) : Except NotifError Notifications :=
  if 0 < s.maxsize ∧ s.maxsize ≤ s.order.length then .error .full
  else .ok { s with order := s.order ++ [item] }

/-- `Notifications.__get_all_items_locked`: drain the whole queue with
`get_nowait` until `Empty`, returning the items in queue order and leaving the
queue empty. -/
def get_all_items (s : Notifications) : List Item × Notifications :=
  (s.order, { s with order := [] })

/-- `Notifications.__requeue_items_locked`: `put_nowait` each item in order.
If a put raises `queue.Full` the exception escapes mid-loop: the items put so
far stay in the queue, the rest are dropped; we return the state at that
moment together with the error. -/
def requeue_items (s : Notifications) : List Item → Notifications × Option NotifError
  | [] => (s, none)
  | item :: rest =>
    match put_nowait s item with
    | .error e => (s, some e)
    | .ok s' => requeue_items s' rest

/-- Python truthiness of `item.get('uuid')`: falsy iff the key is absent or
the value is the empty string. -/
def uuidFalsy : Option String → Bool
  | none => true
  | some v => v == ""

/-- The `uuid`-generation step shared by `add` and `update`: if the item's
uuid is falsy, write the generated id into the item (`item['uuid'] = str(uuid.uuid4())`,
a mutation of the caller's dict). -/
def with_uuid (item : Item) (gen : String) : Item :=
  if uuidFalsy item.uuid then { item with uuid := some gen } else item

/-- The `item['uuid']` lookup after generation (always a `some` there). -/
def item_id (item : Item) : String :=
  item.uuid.getD ""

/-- `Notifications.add`: validate, generate a uuid if falsy, dedup against
`all_items`, else record the uuid in `all_items` and put the item.  Returns
the post-state, the caller's item object after the call, and the escaped
exception if any. -/
def add (s : Notifications) (item : Item) (gen : String) :
    Notifications × Item × Option NotifError :=
  match validate_item item with
  | .error e => (s, item, some e)
  | .ok _ =>
    let item' := with_uuid item gen
    let u := item_id item'
    if u ∈ s.all_items then (s, item', none)
    else
      let s1 := { s with all_items := setAdd s.all_items u }
      match put_nowait s1 item' with
      | .error e => (s1, item', some e)
      | .ok s2 => (s2, item', none)

/-- `Notifications.remove`: drain the queue, requeue every item whose uuid
differs from `item_uuid` (success is set when any item matches), erase the
uuid from `all_items` when found there, and return the found flag.  The
returned `Option Bool` is `none` when an exception escaped before the
`return` statement. -/
def remove (s : Notifications) (item_uuid : String) :
    Notifications × Option Bool × Option NotifError :=
  let (current_items, s0) := get_all_items s
  let requeue := current_items.filter (fun ci => ci.uuid ≠ some item_uuid)
  let success := current_items.any (fun ci => ci.uuid == some item_uuid)
  let s1 :=
    if success ∧ item_uuid ∈ s0.all_items then
      { s0 with all_items := setRemove s0.all_items item_uuid }
    else s0
  match requeue_items s1 requeue with
  | (s2, some e) => (s2, none, some e)
  | (s2, none) => (s2, some success, none)

/-- `Notifications.read_all_items`: drain the queue, requeue everything, and
return the drained list. -/
def read_all_items (s : Notifications) :
    Notifications × Option (List Item) × Option NotifError :=
  let (current_items, s0) := get_all_items s
  match requeue_items s0 current_items with
  | (s1, some e) => (s1, none, some e)
  | (s1, none) => (s1, some current_items, none)

/-- `Notifications.update`: validate, generate a uuid if falsy, drain the
queue, rebuild the sequence replacing every record whose uuid matches by the
new item; if nothing matched, requeue the original contents and append the
new item at the tail.  In both branches the uuid is added to `all_items`. -/
def update (s : Notifications) (item : Item) (gen : String) :
    Notifications × Item × Option NotifError :=
  match validate_item item with
  | .error e => (s, item, some e)
  | .ok _ =>
    let item' := with_uuid item gen
    let u := item_id item'
    let (current_items, s0) := get_all_items s
    let requeue := current_items.map (fun ci => if ci.uuid = some u then item' else ci)
    let replaced := current_items.any (fun ci => ci.uuid == some u)
    if ¬ replaced then
      let s1 := { s0 with all_items := setAdd s0.all_items u }
      match requeue_items s1 current_items with
      | (s2, some e) => (s2, item', some e)
      | (s2, none) =>
        match put_nowait s2 item' with
        | .error e => (s2, item', some e)
        | .ok s3 => (s3, item', none)
    else
      let s1 := { s0 with all_items := setAdd s0.all_items u }
      match requeue_items s1 requeue with
      | (s2, some e) => (s2, item', some e)
      | (s2, none) => (s2, item', none)

/-- The ids of the records currently in the queue (spec: `{r.id for r in order}`). -/
def idsOf (s : Notifications) : List String :=
  s.order.filterMap Item.uuid

/-- The spec's sync invariant: `known == {r.id for r in order}` as sets. -/
def inSync (s : Notifications) : Prop :=
  ∀ u : String, u ∈ s.all_items ↔ u ∈ idsOf s

/-- Executable check for `inSync`. -/
def inSyncB (s : Notifications) : Bool :=
  s.all_items.all (fun u => u ∈ idsOf s) && (idsOf s).all (fun u => u ∈ s.all_items)

/-- Well-formedness carried through traces: `all_items` models a Python set
(no duplicate entries) and is in sync with the queue contents. -/
def WF (s : Notifications) : Prop :=
  s.all_items.Nodup ∧ inSync s

/-- Capacity soundness of a state: the queue never holds more than `maxsize`
items when bounded (every reachable state satisfies this, since `put_nowait`
is the only insertion). -/
def capOK (s : Notifications) : Prop :=
  s.maxsize = 0 ∨ s.order.length ≤ s.maxsize

/-- One public operation, with the non-deterministic `uuid.uuid4()` value
supplied as data. -/
inductive Op where
  | addOp : Item → String → Op
  | removeOp : String → Op
  | updateOp : Item → String → Op
  | readAllOp : Op
deriving DecidableEq, Repr

/-- Run one operation, keeping the post-state and whether an exception escaped. -/
def runOp (s : Notifications) : Op → Notifications × Option NotifError
  | .addOp item gen => let r := add s item gen; (r.1, r.2.2)
  | .removeOp u => let r := remove s u; (r.1, r.2.2)
  | .updateOp item gen => let r := update s item gen; (r.1, r.2.2)
  | .readAllOp => let r := read_all_items s; (r.1, r.2.2)

/-- Run a sequence of operations; the boolean records whether every operation
completed without an exception. -/
def runOps (s : Notifications) : List Op → Notifications × Bool
  | [] => (s, true)
  | op :: rest =>
    let (s', e) := runOp s op
    let (s'', ok) := runOps s' rest
    (s'', e.isNone && ok)

/-! ### Basic lemmas about the building blocks -/

theorem mem_setAdd {xs : List String} {u v : String} :
    v ∈ setAdd xs u ↔ v ∈ xs ∨ v = u := by
  simp only [setAdd]
  split
  · constructor
    · exact Or.inl
    · rintro (hv | rfl)
      · exact hv
      · assumption
  · simp

theorem nodup_setAdd {xs : List String} (u : String) (h : xs.Nodup) :
    (setAdd xs u).Nodup := by
  simp only [setAdd]
  split
  · exact h
  · simp [List.nodup_append, h]
    assumption

theorem mem_setAdd_self {xs : List String} (u : String) : u ∈ setAdd xs u :=
  mem_setAdd.mpr (Or.inr rfl)

theorem put_nowait_ok {s : Notifications} {item : Item}
    (h : s.maxsize = 0 ∨ s.order.length + 1 ≤ s.maxsize) :
    put_nowait s item = .ok { s with order := s.order ++ [item] } := by
  simp only [put_nowait, ite_eq_right_iff]
  intro hc
  rcases h with h | h
  · omega
  · omega

theorem requeue_items_ok :
    ∀ (items : List Item) (s : Notifications),
      (s.maxsize = 0 ∨ s.order.length + items.length ≤ s.maxsize) →
      requeue_items s items = ({ s with order := s.order ++ items }, none)
  | [], s, _ => by simp [requeue_items]
  | item :: rest, s, h => by
    have hput : put_nowait s item = .ok { s with order := s.order ++ [item] } := by
      apply put_nowait_ok
      rcases h with h | h
      · exact Or.inl h
      · right; simp at h; omega
    have hrec := requeue_items_ok rest { s with order := s.order ++ [item] } (by
      rcases h with h | h
      · exact Or.inl h
      · right; simp at h ⊢; omega)
    simp only [requeue_items, hput, hrec, List.append_assoc, List.cons_append,
      List.nil_append]

theorem requeue_items_none :
    ∀ (items : List Item) (s s' : Notifications),
      requeue_items s items = (s', none) →
      s' = { s with order := s.order ++ items }
  | [], s, s', h => by
    simp only [requeue_items, Prod.mk.injEq] at h
    simp [← h.1]
  | item :: rest, s, s', h => by
    simp only [requeue_items] at h
    cases hput : put_nowait s item with
    | error e => rw [hput] at h; simp at h
    | ok s1 =>
      rw [hput] at h
      have := requeue_items_none rest s1 s' h
      simp only [put_nowait] at hput
      split at hput
      · cases hput
      · cases hput
        simpa using this

theorem with_uuid_uuid (item : Item) (gen : String) :
    (with_uuid item gen).uuid = some (item_id (with_uuid item gen)) := by
  simp only [with_uuid, uuidFalsy]
  cases h : item.uuid with
  | none => simp [item_id]
  | some v =>
    by_cases hv : v = ""
    · simp [hv, item_id]
    · simp [hv, item_id, h]

theorem mem_idsOf {s : Notifications} {v : String} :
    v ∈ idsOf s ↔ ∃ it ∈ s.order, it.uuid = some v := by
  simp [idsOf, List.mem_filterMap]

theorem put_nowait_ok_inv {s s' : Notifications} {item : Item}
    (h : put_nowait s item = .ok s') :
    s' = { s with order := s.order ++ [item] } ∧
      (s.maxsize = 0 ∨ s.order.length < s.maxsize) := by
  simp only [put_nowait] at h
  split at h
  · cases h
  · cases h
    refine ⟨rfl, ?_⟩
    next hc => omega

/-! ### Case equations for `add` -/

theorem add_validate_error {s : Notifications} {item : Item} {gen : String}
    {e : NotifError} (hv : validate_item item = .error e) :
    add s item gen = (s, item, some e) := by
  simp only [add, hv]

theorem add_dedup {s : Notifications} {item : Item} {gen : String}
    (hv : validate_item item = .ok ())
    (hu : item_id (with_uuid item gen) ∈ s.all_items) :
    add s item gen = (s, with_uuid item gen, none) := by
  simp only [add, hv, if_pos hu]

theorem add_insert_of_put {s s2 : Notifications} {item : Item} {gen : String}
    (hv : validate_item item = .ok ())
    (hu : item_id (with_uuid item gen) ∉ s.all_items)
    (hput : put_nowait
        { s with all_items := setAdd s.all_items (item_id (with_uuid item gen)) }
        (with_uuid item gen) = .ok s2) :
    add s item gen = (s2, with_uuid item gen, none) := by
  simp only [add, hv, if_neg hu, hput]

theorem add_put_error {s : Notifications} {item : Item} {gen : String} {e : NotifError}
    (hv : validate_item item = .ok ())
    (hu : item_id (with_uuid item gen) ∉ s.all_items)
    (hput : put_nowait
        { s with all_items := setAdd s.all_items (item_id (with_uuid item gen)) }
        (with_uuid item gen) = .error e) :
    add s item gen =
      ({ s with all_items := setAdd s.all_items (item_id (with_uuid item gen)) },
       with_uuid item gen, some e) := by
  simp only [add, hv, if_neg hu, hput]

theorem add_insert {s : Notifications} {item : Item} {gen : String}
    (hv : validate_item item = .ok ())
    (hu : item_id (with_uuid item gen) ∉ s.all_items)
    (hcap : s.maxsize = 0 ∨ s.order.length + 1 ≤ s.maxsize) :
    add s item gen =
      ({ s with order := s.order ++ [with_uuid item gen],
                all_items := setAdd s.all_items (item_id (with_uuid item gen)) },
       with_uuid item gen, none) := by
  exact add_insert_of_put hv hu (put_nowait_ok hcap)

/-! ### Case equations for `remove` and `read_all_items` -/

theorem remove_spec {s : Notifications} {u : String} (hcap : capOK s) :
    remove s u =
      ({ s with
          order := s.order.filter (fun ci => ci.uuid ≠ some u),
          all_items :=
            if (s.order.any fun ci => ci.uuid == some u) ∧ u ∈ s.all_items then
              setRemove s.all_items u
            else s.all_items },
       some (s.order.any fun ci => ci.uuid == some u), none) := by
  have hlen : (s.order.filter fun ci => ci.uuid ≠ some u).length ≤ s.order.length :=
    List.length_filter_le _ _
  simp only [remove, get_all_items]
  by_cases hc : (s.order.any fun ci => ci.uuid == some u) = true ∧ u ∈ s.all_items
  · simp only [if_pos hc]
    rw [requeue_items_ok (s.order.filter fun ci => ci.uuid ≠ some u)
      { maxsize := s.maxsize, order := [], all_items := setRemove s.all_items u }
      (by rcases hcap with h | h
          · exact Or.inl h
          · right; simpa using le_trans hlen h)]
    simp
  · simp only [if_neg hc]
    rw [requeue_items_ok (s.order.filter fun ci => ci.uuid ≠ some u)
      { maxsize := s.maxsize, order := [], all_items := s.all_items }
      (by rcases hcap with h | h
          · exact Or.inl h
          · right; simpa using le_trans hlen h)]
    simp

theorem read_all_spec {s : Notifications} (hcap : capOK s) :
    read_all_items s = (s, some s.order, none) := by
  simp only [read_all_items, get_all_items]
  rw [requeue_items_ok]
  · simp
  · rcases hcap with h | h
    · exact Or.inl h
    · right; simpa using h

/-! ### Case equations for `update` -/

theorem update_validate_error {s : Notifications} {item : Item} {gen : String}
    {e : NotifError} (hv : validate_item item = .error e) :
    update s item gen = (s, item, some e) := by
  simp only [update, hv]

theorem update_replace {s : Notifications} {item : Item} {gen : String}
    (hv : validate_item item = .ok ())
    (hrep : (s.order.any fun ci => ci.uuid == some (item_id (with_uuid item gen))) = true)
    (hcap : capOK s) :
    update s item gen =
      ({ s with
          order := s.order.map
            (fun ci => if ci.uuid = some (item_id (with_uuid item gen))
                       then with_uuid item gen else ci),
          all_items := setAdd s.all_items (item_id (with_uuid item gen)) },
       with_uuid item gen, none) := by
  simp only [update, hv, get_all_items]
  rw [if_neg (by simp [hrep])]
  rw [requeue_items_ok]
  · simp
  · rcases hcap with h | h
    · exact Or.inl h
    · right; simpa using h

theorem update_append {s : Notifications} {item : Item} {gen : String}
    (hv : validate_item item = .ok ())
    (hrep : (s.order.any fun ci => ci.uuid == some (item_id (with_uuid item gen))) = false)
    (hcap : s.maxsize = 0 ∨ s.order.length + 1 ≤ s.maxsize) :
    update s item gen =
      ({ s with
          order := s.order ++ [with_uuid item gen],
          all_items := setAdd s.all_items (item_id (with_uuid item gen)) },
       with_uuid item gen, none) := by
  simp only [update, hv, get_all_items]
  rw [if_pos (by simp [hrep])]
  rw [requeue_items_ok s.order
    (Notifications.mk s.maxsize [] (setAdd s.all_items (item_id (with_uuid item gen))))
    (hcap.elim Or.inl (fun h => Or.inr (by simp; omega)))]
  dsimp only
  rw [@put_nowait_ok
    (Notifications.mk s.maxsize ([] ++ s.order)
      (setAdd s.all_items (item_id (with_uuid item gen))))
    (with_uuid item gen)
    (hcap.elim Or.inl (fun h => Or.inr (by simp; omega)))]
  simp

theorem inSync_iff_inSyncB {s : Notifications} : inSync s ↔ inSyncB s = true := by
  simp only [inSync, inSyncB, Bool.and_eq_true, List.all_eq_true, decide_eq_true_eq]
  constructor
  · intro h
    exact ⟨fun u hu => (h u).mp hu, fun u hu => (h u).mpr hu⟩
  · intro ⟨h1, h2⟩ u
    exact ⟨h1 u, h2 u⟩

theorem update_append_full {s : Notifications} {item : Item} {gen : String}
    (hv : validate_item item = .ok ())
    (hrep : (s.order.any fun ci => ci.uuid == some (item_id (with_uuid item gen))) = false)
    (hcap : capOK s) (hfull : 0 < s.maxsize ∧ s.maxsize ≤ s.order.length) :
    update s item gen =
      ({ s with
          order := s.order,
          all_items := setAdd s.all_items (item_id (with_uuid item gen)) },
       with_uuid item gen, some .full) := by
  simp only [update, hv, get_all_items]
  rw [if_pos (by simp [hrep])]
  rw [requeue_items_ok s.order
    (Notifications.mk s.maxsize [] (setAdd s.all_items (item_id (with_uuid item gen))))
    (hcap.elim Or.inl (fun h => Or.inr (by simp; omega)))]
  dsimp only
  rw [show put_nowait
      (Notifications.mk s.maxsize ([] ++ s.order)
        (setAdd s.all_items (item_id (with_uuid item gen))))
      (with_uuid item gen) = .error .full from by
    simp only [put_nowait, List.nil_append]
    rw [if_pos hfull]]
  simp

/-! ### Membership lemmas about record ids -/

theorem ids_filter_ne {l : List Item} {u v : String} :
    v ∈ (l.filter fun ci => ci.uuid ≠ some u).filterMap Item.uuid ↔
      v ∈ l.filterMap Item.uuid ∧ v ≠ u := by
  simp only [List.mem_filterMap, List.mem_filter, decide_not, Bool.not_eq_true',
    decide_eq_false_iff_not]
  constructor
  · rintro ⟨it, ⟨hmem, hne⟩, huv⟩
    refine ⟨⟨it, hmem, huv⟩, fun hvu => hne ?_⟩
    rw [huv, hvu]
  · rintro ⟨⟨it, hmem, huv⟩, hvu⟩
    refine ⟨it, ⟨hmem, fun hiu => hvu ?_⟩, huv⟩
    rw [huv] at hiu
    exact Option.some.inj hiu

theorem ids_map_replace {l : List Item} {u : String} {item' : Item}
    (hitem : item'.uuid = some u) :
    (l.map fun ci => if ci.uuid = some u then item' else ci).filterMap Item.uuid =
      l.filterMap Item.uuid := by
  induction l with
  | nil => rfl
  | cons a l ih =>
    by_cases h : a.uuid = some u
    · simp [List.filterMap_cons, h, hitem, ih]
    · simp [List.filterMap_cons, h, ih]

theorem any_uuid_eq_true {l : List Item} {u : String}
    (h : (l.any fun ci => ci.uuid == some u) = true) :
    u ∈ l.filterMap Item.uuid := by
  simp only [List.any_eq_true, beq_iff_eq] at h
  obtain ⟨it, hmem, hu⟩ := h
  exact List.mem_filterMap.mpr ⟨it, hmem, hu⟩

theorem any_uuid_eq_false {l : List Item} {u : String}
    (h : (l.any fun ci => ci.uuid == some u) = false) :
    (l.filter fun ci => ci.uuid ≠ some u) = l := by
  rw [List.filter_eq_self]
  intro it hmem
  simp only [List.any_eq_false, beq_iff_eq] at h
  simpa using h it hmem

/-! ### Preservation of well-formedness and capacity soundness -/

theorem step_add {s : Notifications} {item : Item} {gen : String}
    (hwf : WF s) (hcap : capOK s) (hok : (add s item gen).2.2 = none) :
    WF (add s item gen).1 ∧ capOK (add s item gen).1 := by
  cases hv : validate_item item with
  | error e => rw [add_validate_error hv] at hok; simp at hok
  | ok uv =>
    cases uv
    by_cases hu : item_id (with_uuid item gen) ∈ s.all_items
    · rw [add_dedup hv hu]
      exact ⟨hwf, hcap⟩
    · cases hput : put_nowait
          { s with all_items := setAdd s.all_items (item_id (with_uuid item gen)) }
          (with_uuid item gen) with
      | error e => rw [add_put_error hv hu hput] at hok; simp at hok
      | ok s2 =>
        rw [add_insert_of_put hv hu hput]
        obtain ⟨hs2, hroom⟩ := put_nowait_ok_inv hput
        subst hs2
        dsimp only at hroom ⊢
        refine ⟨⟨nodup_setAdd _ hwf.1, ?_⟩, ?_⟩
        · intro v
          rw [mem_setAdd]
          simp only [idsOf, List.filterMap_append, List.mem_append,
            List.filterMap_cons, with_uuid_uuid item gen, List.filterMap_nil]
          rw [← idsOf]
          constructor
          · rintro (hv' | rfl)
            · exact Or.inl ((hwf.2 v).mp hv')
            · simp
          · rintro (hv' | hv')
            · exact Or.inl ((hwf.2 v).mpr hv')
            · simp at hv'
              exact Or.inr hv'
        · simp only [capOK, List.length_append, List.length_cons, List.length_nil]
          omega

theorem step_remove {s : Notifications} {u : String}
    (hwf : WF s) (hcap : capOK s) :
    WF (remove s u).1 ∧ capOK (remove s u).1 := by
  rw [remove_spec hcap]
  dsimp only
  by_cases hc : (s.order.any fun ci => ci.uuid == some u) = true ∧ u ∈ s.all_items
  · simp only [if_pos hc]
    refine ⟨⟨hwf.1.erase u, ?_⟩, ?_⟩
    · intro v
      rw [setRemove, hwf.1.mem_erase_iff]
      simp only [idsOf]
      rw [ids_filter_ne]
      rw [← idsOf, ← hwf.2 v]
      tauto
    · simp only [capOK]
      rcases hcap with h | h
      · exact Or.inl h
      · exact Or.inr (le_trans (List.length_filter_le _ _) h)
  · simp only [if_neg hc]
    by_cases hany : (s.order.any fun ci => ci.uuid == some u) = true
    · -- under `WF` a matching record forces `u ∈ all_items`, so this case
      -- contradicts `hc`
      exact absurd ⟨hany, (hwf.2 u).mpr (any_uuid_eq_true hany)⟩ hc
    · rw [Bool.not_eq_true] at hany
      rw [any_uuid_eq_false hany]
      exact ⟨⟨hwf.1, fun v => hwf.2 v⟩, hcap⟩

theorem step_read_all {s : Notifications} (hwf : WF s) (hcap : capOK s) :
    WF (read_all_items s).1 ∧ capOK (read_all_items s).1 := by
  rw [read_all_spec hcap]
  exact ⟨hwf, hcap⟩

theorem step_update {s : Notifications} {item : Item} {gen : String}
    (hwf : WF s) (hcap : capOK s) (hok : (update s item gen).2.2 = none) :
    WF (update s item gen).1 ∧ capOK (update s item gen).1 := by
  cases hv : validate_item item with
  | error e => rw [update_validate_error hv] at hok; simp at hok
  | ok uv =>
    cases uv
    by_cases hrep : (s.order.any fun ci => ci.uuid == some (item_id (with_uuid item gen))) = true
    · rw [update_replace hv hrep hcap]
      dsimp only
      have humem : item_id (with_uuid item gen) ∈ s.all_items :=
        (hwf.2 _).mpr (any_uuid_eq_true hrep)
      refine ⟨⟨nodup_setAdd _ hwf.1, ?_⟩, ?_⟩
      · intro v
        rw [mem_setAdd]
        simp only [idsOf]
        rw [ids_map_replace (with_uuid_uuid item gen), ← idsOf]
        constructor
        · rintro (hv' | rfl)
          · exact (hwf.2 v).mp hv'
          · exact (hwf.2 _).mp humem
        · exact fun hv' => Or.inl ((hwf.2 v).mpr hv')
      · simp only [capOK, List.length_map]
        exact hcap
    · rw [Bool.not_eq_true] at hrep
      by_cases hroom : s.maxsize = 0 ∨ s.order.length + 1 ≤ s.maxsize
      · rw [update_append hv hrep hroom]
        dsimp only
        refine ⟨⟨nodup_setAdd _ hwf.1, ?_⟩, ?_⟩
        · intro v
          rw [mem_setAdd]
          simp only [idsOf, List.filterMap_append, List.mem_append,
            List.filterMap_cons, with_uuid_uuid item gen, List.filterMap_nil]
          rw [← idsOf]
          constructor
          · rintro (hv' | rfl)
            · exact Or.inl ((hwf.2 v).mp hv')
            · simp
          · rintro (hv' | hv')
            · exact Or.inl ((hwf.2 v).mpr hv')
            · simp at hv'
              exact Or.inr hv'
        · simp only [capOK, List.length_append, List.length_cons, List.length_nil]
          omega
      · have hfull : 0 < s.maxsize ∧ s.maxsize ≤ s.order.length := by
          rcases hcap with h | h <;> omega
        rw [update_append_full hv hrep hcap hfull] at hok
        simp at hok

theorem step_runOp {s : Notifications} {op : Op}
    (hwf : WF s) (hcap : capOK s) (hok : (runOp s op).2 = none) :
    WF (runOp s op).1 ∧ capOK (runOp s op).1 := by
  cases op with
  | addOp item gen => exact step_add hwf hcap hok
  | removeOp u => exact step_remove hwf hcap
  | updateOp item gen => exact step_update hwf hcap hok
  | readAllOp => exact step_read_all hwf hcap

theorem runOps_WF :
    ∀ (ops : List Op) (s : Notifications), WF s → capOK s →
      (runOps s ops).2 = true → WF (runOps s ops).1 ∧ capOK (runOps s ops).1
  | [], s, hwf, hcap, _ => ⟨hwf, hcap⟩
  | op :: rest, s, hwf, hcap, hok => by
    simp only [runOps, Bool.and_eq_true, Option.isNone_iff_eq_none] at hok ⊢
    obtain ⟨he, hrest⟩ := hok
    obtain ⟨hwf', hcap'⟩ := step_runOp hwf hcap he
    exact runOps_WF rest (runOp s op).1 hwf' hcap' hrest

theorem WF_init (m : Nat) : WF (init m) := by
  constructor
  · simp [init]
  · intro v
    simp [init, idsOf]

theorem capOK_init (m : Nat) : capOK (init m) := by
  simp [capOK, init]

theorem any_uuid_of_mem {l : List Item} {u : String}
    (h : u ∈ l.filterMap Item.uuid) :
    (l.any fun ci => ci.uuid == some u) = true := by
  obtain ⟨it, hmem, hu⟩ := List.mem_filterMap.mp h
  simp only [List.any_eq_true, beq_iff_eq]
  exact ⟨it, hmem, hu⟩

theorem any_uuid_of_not_mem {l : List Item} {u : String}
    (h : u ∉ l.filterMap Item.uuid) :
    (l.any fun ci => ci.uuid == some u) = false := by
  rw [Bool.eq_false_iff]
  intro hany
  exact h (any_uuid_eq_true hany)

theorem with_uuid_of_falsy {item : Item} {gen : String}
    (h : uuidFalsy item.uuid = true) :
    with_uuid item gen = { item with uuid := some gen } := by
  simp [with_uuid, h]

theorem with_uuid_of_not_falsy {item : Item} {gen : String}
    (h : uuidFalsy item.uuid = false) :
    with_uuid item gen = item := by
  simp [with_uuid, h]

theorem uuidFalsy_some {u : String} (h : u ≠ "") : uuidFalsy (some u) = false := by
  simp [uuidFalsy, h]

theorem item_id_of_uuid {item : Item} {u : String} (h : item.uuid = some u) :
    item_id item = u := by
  simp [item_id, h]

theorem add_item_component {s : Notifications} {item : Item} {gen : String}
    (hv : validate_item item = .ok ()) :
    (add s item gen).2.1 = with_uuid item gen := by
  by_cases hu : item_id (with_uuid item gen) ∈ s.all_items
  · rw [add_dedup hv hu]
  · cases hput : put_nowait
        { s with all_items := setAdd s.all_items (item_id (with_uuid item gen)) }
        (with_uuid item gen) with
    | error e => rw [add_put_error hv hu hput]
    | ok s2 => rw [add_insert_of_put hv hu hput]

theorem update_item_component {s : Notifications} {item : Item} {gen : String}
    (hv : validate_item item = .ok ()) :
    (update s item gen).2.1 = with_uuid item gen := by
  simp only [update, hv, get_all_items]
  split
  · rcases hreq : requeue_items
        (Notifications.mk s.maxsize []
          (setAdd s.all_items (item_id (with_uuid item gen)))) s.order
      with ⟨s2, e⟩
    cases e with
    | none =>
      simp only [hreq]
      cases hput : put_nowait s2 (with_uuid item gen) <;> simp [hput]
    | some e => simp [hreq]
  · rcases hreq : requeue_items
        (Notifications.mk s.maxsize []
          (setAdd s.all_items (item_id (with_uuid item gen))))
        (s.order.map fun ci =>
          if ci.uuid = some (item_id (with_uuid item gen)) then with_uuid item gen else ci)
      with ⟨s2, e⟩
    cases e <;> simp [hreq]

/-! ### Concrete records and stores for witnesses -/

def itemA : Item :=
  ⟨some "a", some "error", some "report", some "failedTaskLabel", some "msgA", some "navA"⟩

def itemB : Item :=
  ⟨some "b", some "info", some "update", some "updateAvailableLabel", some "msgB", some "navB"⟩

def itemC : Item :=
  ⟨some "c", some "warning", some "iconC", some "labelC", some "msgC", some "navC"⟩

def itemD : Item :=
  ⟨some "d", some "success", some "iconD", some "labelD", some "msgD", some "navD"⟩

def itemD2 : Item :=
  ⟨some "d", some "info", some "iconD2", some "labelD2", some "msgD2", some "navD2"⟩

def itemNoId : Item :=
  ⟨none, some "info", some "x", some "l", some "m", some "nv"⟩

def itemEmptyId : Item :=
  ⟨some "", some "info", some "x2", some "l2", some "m2", some "nv2"⟩

def itemEmptyVals : Item :=
  ⟨some "e", some "info", some "", some "", some "", some ""⟩

def itemMissingIcon : Item :=
  ⟨some "v", some "info", none, some "l", some "m", some "nv"⟩

def itemBogusKind : Item :=
  ⟨some "w", some "bogus", some "i", some "l", some "m", some "nv"⟩

def itemA2 : Item :=
  ⟨some "a", some "warning", some "icon2", some "label2", some "msg2", some "nav2"⟩

/-- Insertion-order store [A,B,C,D] (ids a,b,c,d), unbounded. -/
def storeABCD : Notifications :=
  ⟨0, [itemA, itemB, itemC, itemD], ["a", "b", "c", "d"]⟩

/-- A store holding two records that share the id "d" (a state outside the
dedup invariant). -/
def storeDupD : Notifications :=
  ⟨0, [itemA, itemD, itemB, itemD2], ["a", "b", "d"]⟩

/-! ### Claim C1 -/

/-- **C1** (amended): along any sequence of operations from a fresh store in
which every operation completes without an exception, `all_items` (spec
`known`) holds exactly the set of ids of the records currently in the queue
(spec `order`).  The original claim's extension to a bounded store where an
operation exceeds the capacity is refuted by `C1_counterexample`: such an
operation raises `queue.Full` after inserting the id into `all_items` but
before the record enters the queue. -/
theorem C1_known_in_sync_without_full (m : Nat) (ops : List Op) (s' : Notifications)
    (h : runOps (init m) ops = (s', true)) : inSync s' := by
  have hw := runOps_WF ops (init m) (WF_init m) (capOK_init m) (by rw [h])
  rw [h] at hw
  exact hw.1.2

/-- **C1** counterexample: on a store with `maxsize = 1`, adding a second
valid record with a fresh id raises `queue.Full` with the id already added to
`all_items`; the following `read_all_items` completes normally and the store
is out of sync (`known ≠ {r.id for r in order}`), refuting the claim that the
invariant survives capacity-exceeding operations. -/
theorem C1_counterexample :
    (read_all_items (runOps (init 1) [Op.addOp itemA "", Op.addOp itemB ""]).1).2.2 =
      none ∧
    ¬ inSync (read_all_items (runOps (init 1)
      [Op.addOp itemA "", Op.addOp itemB ""]).1).1 := by
  constructor
  · decide
  · rw [inSync_iff_inSyncB]
    decide

/-- Witness for **C1**: a concrete error-free add/update/remove/readAll trace
on an unbounded store ends in sync. -/
theorem C1_witness :
    runOps (init 0)
        [Op.addOp itemA "", Op.updateOp itemA2 "", Op.removeOp "a", Op.readAllOp] =
      ((runOps (init 0)
        [Op.addOp itemA "", Op.updateOp itemA2 "", Op.removeOp "a", Op.readAllOp]).1,
       true) ∧
    inSync (runOps (init 0)
      [Op.addOp itemA "", Op.updateOp itemA2 "", Op.removeOp "a", Op.readAllOp]).1 :=
  ⟨by decide,
   C1_known_in_sync_without_full 0
     [Op.addOp itemA "", Op.updateOp itemA2 "", Op.removeOp "a", Op.readAllOp] _
     (by decide)⟩

/-! ### Claim C3 -/

/-- **C3**: `add` with a valid item whose (non-empty) id is already in
`known` is a no-op: the store (`order` and `all_items`) is returned exactly
unchanged, no error is raised, and the caller's item is untouched — in
particular, whatever record is held for that id (the first-inserted payload)
stays as it is. -/
theorem C3_add_duplicate_noop (s : Notifications) (item : Item) (gen u : String)
    (hv : validate_item item = .ok ()) (hu : item.uuid = some u) (hne : u ≠ "")
    (hmem : u ∈ s.all_items) :
    add s item gen = (s, item, none) := by
  have hwu : with_uuid item gen = item :=
    with_uuid_of_not_falsy (by rw [hu]; exact uuidFalsy_some hne)
  have hid : item_id (with_uuid item gen) = u := by
    rw [hwu]; exact item_id_of_uuid hu
  rw [add_dedup hv (by rw [hid]; exact hmem), hwu]

/-- Witness for **C3**: re-adding id "a" with a different payload leaves
`storeABCD` byte-for-byte unchanged (the stored record is still `itemA`). -/
theorem C3_witness :
    (validate_item itemA2 = .ok () ∧ itemA2.uuid = some "a" ∧ "a" ≠ "" ∧
      "a" ∈ storeABCD.all_items) ∧
    add storeABCD itemA2 "g" = (storeABCD, itemA2, none) :=
  ⟨⟨rfl, rfl, by decide, by decide⟩,
   C3_add_duplicate_noop storeABCD itemA2 "g" "a"
     rfl rfl (by decide) (by decide)⟩

/-! ### Claim C4 -/

/-- **C4**: `remove u` raises nothing and returns `true` iff a record with id
`u` was in the queue; the post-queue is exactly the non-matching records in
their original relative order; removing an absent id returns `false` and
leaves the store entirely unchanged. -/
theorem C4_remove_found_filter_order (s : Notifications) (u : String)
    (hcap : capOK s) :
    (remove s u).2.2 = none ∧
    ((remove s u).2.1 = some true ↔ ∃ it ∈ s.order, it.uuid = some u) ∧
    (remove s u).1.order = s.order.filter (fun ci => ci.uuid ≠ some u) ∧
    ((¬ ∃ it ∈ s.order, it.uuid = some u) → remove s u = (s, some false, none)) := by
  rw [remove_spec hcap]
  refine ⟨rfl, ?_, rfl, ?_⟩
  · simp only [Option.some.injEq, List.any_eq_true, beq_iff_eq]
  · intro h
    have hnm : u ∉ s.order.filterMap Item.uuid := by
      intro hmem'
      obtain ⟨it, h1, h2⟩ := List.mem_filterMap.mp hmem'
      exact h ⟨it, h1, h2⟩
    have hany := any_uuid_of_not_mem hnm
    rw [hany, any_uuid_eq_false hany, if_neg (by simp)]

/-- Witness for **C4**: removing "b" from insertion order [A,B,C,D] leaves
read order [A,C,D] and returns `true`. -/
theorem C4_witness :
    capOK storeABCD ∧
    ((remove storeABCD "b").2.2 = none ∧
     ((remove storeABCD "b").2.1 = some true ↔
        ∃ it ∈ storeABCD.order, it.uuid = some "b") ∧
     (remove storeABCD "b").1.order =
        storeABCD.order.filter (fun ci => ci.uuid ≠ some "b") ∧
     ((¬ ∃ it ∈ storeABCD.order, it.uuid = some "b") →
        remove storeABCD "b" = (storeABCD, some false, none))) :=
  ⟨Or.inl rfl, C4_remove_found_filter_order storeABCD "b" (Or.inl rfl)⟩

/-! ### Claim C5 -/

/-- **C5**: `read_all_items` returns the current records in stored order,
raises nothing, and leaves the whole store (both `order` and `all_items`)
unchanged; hence two consecutive calls return identical ordered contents. -/
theorem C5_read_all_pure (s : Notifications) (hcap : capOK s) :
    read_all_items s = (s, some s.order, none) ∧
    (read_all_items (read_all_items s).1).2.1 = (read_all_items s).2.1 := by
  have h := read_all_spec hcap
  exact ⟨h, by simp [h]⟩

/-- Witness for **C5**: reading `storeABCD` returns its four records in order
and leaves the store unchanged. -/
theorem C5_witness :
    capOK storeABCD ∧
    (read_all_items storeABCD = (storeABCD, some storeABCD.order, none) ∧
     (read_all_items (read_all_items storeABCD).1).2.1 =
        (read_all_items storeABCD).2.1) :=
  ⟨Or.inl rfl, C5_read_all_pure storeABCD (Or.inl rfl)⟩

/-! ### Claim C2 -/

/-- **C2**: for a valid item carrying a non-empty id `u`: if some record in
the queue has id `u`, `update` replaces that record's payload with the item
at its original position (record count and the positions of all records
unchanged: the new sequence is the pointwise replacement of the old one) and
raises nothing; if no record has id `u`, `update` appends the item at the
end, growing the count by one; in both cases `u` is in `known` afterward. -/
theorem C2_update_upsert (s : Notifications) (item : Item) (gen u : String)
    (hv : validate_item item = .ok ()) (hu : item.uuid = some u) (hne : u ≠ "")
    (hcap : capOK s) :
    (u ∈ idsOf s →
      (update s item gen).2.2 = none ∧
      (update s item gen).1.order =
        s.order.map (fun ci => if ci.uuid = some u then item else ci) ∧
      (update s item gen).1.order.length = s.order.length ∧
      u ∈ (update s item gen).1.all_items) ∧
    (u ∉ idsOf s →
      (s.maxsize = 0 ∨ s.order.length + 1 ≤ s.maxsize) →
      (update s item gen).2.2 = none ∧
      (update s item gen).1.order = s.order ++ [item] ∧
      (update s item gen).1.order.length = s.order.length + 1 ∧
      u ∈ (update s item gen).1.all_items) := by
  have hwu : with_uuid item gen = item :=
    with_uuid_of_not_falsy (by rw [hu]; exact uuidFalsy_some hne)
  have hid : item_id (with_uuid item gen) = u := by
    rw [hwu]; exact item_id_of_uuid hu
  constructor
  · intro hmem
    have hrep : (s.order.any fun ci =>
        ci.uuid == some (item_id (with_uuid item gen))) = true := by
      rw [hid]; exact any_uuid_of_mem hmem
    rw [update_replace hv hrep hcap, hid, hwu]
    exact ⟨rfl, rfl, by simp, mem_setAdd_self u⟩
  · intro hmem hroom
    have hrep : (s.order.any fun ci =>
        ci.uuid == some (item_id (with_uuid item gen))) = false := by
      rw [hid]; exact any_uuid_of_not_mem hmem
    rw [update_append hv hrep hroom, hid, hwu]
    exact ⟨rfl, rfl, by simp, mem_setAdd_self u⟩

/-- Witness for **C2**: updating id "a" (present) in `storeABCD` replaces the
record in place; updating id "e" (absent) appends at the end. -/
theorem C2_witness :
    ("a" ∈ idsOf storeABCD ∧
     (update storeABCD itemA2 "g").2.2 = none ∧
     (update storeABCD itemA2 "g").1.order =
        storeABCD.order.map (fun ci => if ci.uuid = some "a" then itemA2 else ci) ∧
     (update storeABCD itemA2 "g").1.order.length = storeABCD.order.length ∧
     "a" ∈ (update storeABCD itemA2 "g").1.all_items) ∧
    ("e" ∉ idsOf storeABCD ∧
     (update storeABCD itemEmptyVals "g").2.2 = none ∧
     (update storeABCD itemEmptyVals "g").1.order =
        storeABCD.order ++ [itemEmptyVals] ∧
     (update storeABCD itemEmptyVals "g").1.order.length =
        storeABCD.order.length + 1 ∧
     "e" ∈ (update storeABCD itemEmptyVals "g").1.all_items) :=
  ⟨⟨by decide,
    (C2_update_upsert storeABCD itemA2 "g" "a" rfl rfl (by decide)
      (Or.inl rfl)).1 (by decide)⟩,
   ⟨by decide,
    (C2_update_upsert storeABCD itemEmptyVals "g" "e" rfl rfl (by decide)
      (Or.inl rfl)).2 (by decide) (Or.inl rfl)⟩⟩

/-! ### Claim C7 -/

/-- **C7**: `add` of a valid item whose id is empty or absent succeeds and
appends a record whose id is the generated (non-empty) value; under the
hypothesis that the generated id is not in `known`, the record is never
dedup-dropped and the record count grows by one. -/
theorem C7_add_generates_id (s : Notifications) (item : Item) (gen : String)
    (hv : validate_item item = .ok ()) (hfalsy : uuidFalsy item.uuid = true)
    (_hne : gen ≠ "") (hfresh : gen ∉ s.all_items)
    (hcap : s.maxsize = 0 ∨ s.order.length + 1 ≤ s.maxsize) :
    (add s item gen).2.2 = none ∧
    (add s item gen).1.order = s.order ++ [{ item with uuid := some gen }] ∧
    (add s item gen).1.order.length = s.order.length + 1 ∧
    gen ∈ (add s item gen).1.all_items := by
  have hwu : with_uuid item gen = { item with uuid := some gen } :=
    with_uuid_of_falsy hfalsy
  have hid : item_id (with_uuid item gen) = gen := by rw [hwu]; rfl
  rw [add_insert hv (by rw [hid]; exact hfresh) hcap, hid, hwu]
  exact ⟨rfl, rfl, by simp, mem_setAdd_self gen⟩

/-- Witness for **C7**: adding `itemNoId` (no uuid key) with generated id
"fresh" appends a record carrying that id. -/
theorem C7_witness :
    (validate_item itemNoId = .ok () ∧ uuidFalsy itemNoId.uuid = true ∧
     "fresh" ≠ "" ∧ "fresh" ∉ (init 0).all_items) ∧
    ((add (init 0) itemNoId "fresh").2.2 = none ∧
     (add (init 0) itemNoId "fresh").1.order =
        (init 0).order ++ [{ itemNoId with uuid := some "fresh" }] ∧
     (add (init 0) itemNoId "fresh").1.order.length = (init 0).order.length + 1 ∧
     "fresh" ∈ (add (init 0) itemNoId "fresh").1.all_items) :=
  ⟨⟨rfl, rfl, by decide, by decide⟩,
   C7_add_generates_id (init 0) itemNoId "fresh" rfl rfl (by decide) (by decide)
     (Or.inl rfl)⟩

/-! ### Claim C8 -/

/-- **C8**: `update` of a valid item whose id is empty or absent writes the
generated id into it and, when the generated id matches no record currently
in the queue, always takes the not-found branch: the item is appended at the
end and every existing record is left in place (no update-in-place). -/
theorem C8_update_generated_id_appends (s : Notifications) (item : Item)
    (gen : String) (hv : validate_item item = .ok ())
    (hfalsy : uuidFalsy item.uuid = true) (hfresh : gen ∉ idsOf s)
    (hcap : s.maxsize = 0 ∨ s.order.length + 1 ≤ s.maxsize) :
    (update s item gen).2.2 = none ∧
    (update s item gen).1.order = s.order ++ [{ item with uuid := some gen }] ∧
    (update s item gen).2.1 = { item with uuid := some gen } ∧
    gen ∈ (update s item gen).1.all_items := by
  have hwu : with_uuid item gen = { item with uuid := some gen } :=
    with_uuid_of_falsy hfalsy
  have hid : item_id (with_uuid item gen) = gen := by rw [hwu]; rfl
  have hrep : (s.order.any fun ci =>
      ci.uuid == some (item_id (with_uuid item gen))) = false := by
    rw [hid]; exact any_uuid_of_not_mem hfresh
  rw [update_append hv hrep hcap, hid, hwu]
  exact ⟨rfl, rfl, rfl, mem_setAdd_self gen⟩

/-- Witness for **C8**: `update` with `itemEmptyId` (empty-string uuid) on
`storeABCD` degrades to an append at the end. -/
theorem C8_witness :
    (validate_item itemEmptyId = .ok () ∧ uuidFalsy itemEmptyId.uuid = true ∧
     "fresh2" ∉ idsOf storeABCD) ∧
    ((update storeABCD itemEmptyId "fresh2").2.2 = none ∧
     (update storeABCD itemEmptyId "fresh2").1.order =
        storeABCD.order ++ [{ itemEmptyId with uuid := some "fresh2" }] ∧
     (update storeABCD itemEmptyId "fresh2").2.1 =
        { itemEmptyId with uuid := some "fresh2" } ∧
     "fresh2" ∈ (update storeABCD itemEmptyId "fresh2").1.all_items) :=
  ⟨⟨rfl, rfl, by decide⟩,
   C8_update_generated_id_appends storeABCD itemEmptyId "fresh2" rfl rfl
     (by decide) (Or.inl rfl)⟩

/-! ### Claim C9 -/

/-- **C9**: `remove u` deletes every record whose uuid equals `u`, not only
the first match: the surviving sequence is the full filter, no survivor
carries `u`, and the call returns `true` when at least one match existed —
even in states where several records share the id. -/
theorem C9_remove_deletes_all_matches (s : Notifications) (u : String)
    (hcap : capOK s) (hpresent : ∃ it ∈ s.order, it.uuid = some u) :
    (remove s u).2.2 = none ∧
    (remove s u).2.1 = some true ∧
    (remove s u).1.order = s.order.filter (fun ci => ci.uuid ≠ some u) ∧
    ∀ it ∈ (remove s u).1.order, it.uuid ≠ some u := by
  rw [remove_spec hcap]
  obtain ⟨it0, hmem0, hu0⟩ := hpresent
  have hany : (s.order.any fun ci => ci.uuid == some u) = true := by
    simp only [List.any_eq_true, beq_iff_eq]
    exact ⟨it0, hmem0, hu0⟩
  rw [hany]
  refine ⟨rfl, rfl, rfl, ?_⟩
  intro it hmem
  simpa using List.of_mem_filter hmem

/-- Witness for **C9**: `storeDupD` holds two records with id "d"; one
`remove "d"` deletes both and returns `true`. -/
theorem C9_witness :
    (capOK storeDupD ∧ ∃ it ∈ storeDupD.order, it.uuid = some "d") ∧
    ((remove storeDupD "d").2.2 = none ∧
     (remove storeDupD "d").2.1 = some true ∧
     (remove storeDupD "d").1.order =
        storeDupD.order.filter (fun ci => ci.uuid ≠ some "d") ∧
     ∀ it ∈ (remove storeDupD "d").1.order, it.uuid ≠ some "d") :=
  ⟨⟨Or.inl rfl, by decide⟩,
   C9_remove_deletes_all_matches storeDupD "d" (Or.inl rfl) (by decide)⟩

/-! ### Claim C10 -/

/-- **C10**: when the caller's item has an empty or absent id, both `add` and
`update` write the generated id back into the caller's item object itself
(the item as seen by the caller after the call carries the generated id);
an item passed with a non-empty id is not modified by this step. -/
theorem C10_writeback (s : Notifications) (item : Item) (gen : String)
    (hv : validate_item item = .ok ()) :
    (uuidFalsy item.uuid = true →
      (add s item gen).2.1 = { item with uuid := some gen } ∧
      (update s item gen).2.1 = { item with uuid := some gen }) ∧
    (uuidFalsy item.uuid = false →
      (add s item gen).2.1 = item ∧ (update s item gen).2.1 = item) := by
  constructor
  · intro hf
    rw [add_item_component hv, update_item_component hv, with_uuid_of_falsy hf]
    exact ⟨rfl, rfl⟩
  · intro hf
    rw [add_item_component hv, update_item_component hv,
      with_uuid_of_not_falsy hf]
    exact ⟨rfl, rfl⟩

/-- Witness for **C10**: `itemNoId` comes back carrying the generated id from
both `add` and `update`; `itemA` (explicit id) comes back untouched. -/
theorem C10_witness :
    validate_item itemNoId = .ok () ∧
    ((add (init 0) itemNoId "gg").2.1 = { itemNoId with uuid := some "gg" } ∧
     (update (init 0) itemNoId "gg").2.1 = { itemNoId with uuid := some "gg" }) ∧
    ((add (init 0) itemA "gg").2.1 = itemA ∧
     (update (init 0) itemA "gg").2.1 = itemA) :=
  ⟨rfl,
   (C10_writeback (init 0) itemNoId "gg" rfl).1 rfl,
   (C10_writeback (init 0) itemA "gg" rfl).2 rfl⟩

/-! ### Claim C6 -/

theorem keyAbsent_type (item : Item) : keyAbsent item "type" = item.type.isNone := rfl

theorem keyAbsent_icon (item : Item) : keyAbsent item "icon" = item.icon.isNone := rfl

theorem keyAbsent_label (item : Item) : keyAbsent item "label" = item.label.isNone := rfl

theorem keyAbsent_message (item : Item) :
    keyAbsent item "message" = item.message.isNone := rfl

theorem keyAbsent_navigation (item : Item) :
    keyAbsent item "navigation" = item.navigation.isNone := rfl

/-- `__validate_item` reports the first absent key (in source key order), and
only checks the `type` value once every key is present. -/
theorem validate_item_eq (item : Item) :
    validate_item item =
      match requiredKeys.find? (keyAbsent item) with
      | some k => .error (.missingKey k)
      | none =>
        if item.type ∈ validTypes.map some then .ok ()
        else .error (.invalidType item.type) := by
  by_cases h1 : item.type.isNone
  · simp [validate_item, requiredKeys, List.find?, keyAbsent_type, h1]
  · by_cases h2 : item.icon.isNone
    · simp [validate_item, requiredKeys, List.find?, keyAbsent_type, keyAbsent_icon,
        h1, h2]
    · by_cases h3 : item.label.isNone
      · simp [validate_item, requiredKeys, List.find?, keyAbsent_type,
          keyAbsent_icon, keyAbsent_label, h1, h2, h3]
      · by_cases h4 : item.message.isNone
        · simp [validate_item, requiredKeys, List.find?, keyAbsent_type,
            keyAbsent_icon, keyAbsent_label, keyAbsent_message, h1, h2, h3, h4]
        · by_cases h5 : item.navigation.isNone
          · simp [validate_item, requiredKeys, List.find?, keyAbsent_type,
              keyAbsent_icon, keyAbsent_label, keyAbsent_message,
              keyAbsent_navigation, h1, h2, h3, h4, h5]
          · simp [validate_item, requiredKeys, List.find?, keyAbsent_type,
              keyAbsent_icon, keyAbsent_label, keyAbsent_message,
              keyAbsent_navigation, h1, h2, h3, h4, h5]

/-- **C6**: validation fails with the `ValidationError` naming the *first*
missing key among the five required keys in source order (`List.find?` over
`requiredKeys`), or with the `InvalidKind` error carrying the offending
`type` value when all keys are present but the value is outside
{error, warning, success, info}; it succeeds otherwise (only key presence is
checked, so empty string values are accepted).  Any validation failure is
propagated by `add` and `update` with the store and the caller's item left
completely unmodified (in the source the check runs before the lock is
acquired). -/
theorem C6_validation (item : Item) :
    (∀ (s : Notifications) (gen : String) (e : NotifError),
        validate_item item = .error e →
        add s item gen = (s, item, some e) ∧
        update s item gen = (s, item, some e)) ∧
    (∀ k : String, validate_item item = .error (.missingKey k) ↔
        requiredKeys.find? (keyAbsent item) = some k) ∧
    (∀ v : Option String, validate_item item = .error (.invalidType v) ↔
        ((∀ k ∈ requiredKeys, keyAbsent item k = false) ∧
         v = item.type ∧ item.type ∉ validTypes.map some)) ∧
    (validate_item item = .ok () ↔
        ((∀ k ∈ requiredKeys, keyAbsent item k = false) ∧
         item.type ∈ validTypes.map some)) := by
  refine ⟨fun s gen e he => ⟨add_validate_error he, update_validate_error he⟩,
    ?_, ?_, ?_⟩
  · intro k
    rw [validate_item_eq]
    cases hf : requiredKeys.find? (keyAbsent item) with
    | some k0 => simp
    | none =>
      by_cases h6 : item.type ∈ validTypes.map some <;> simp [h6]
  · intro v
    rw [validate_item_eq]
    cases hf : requiredKeys.find? (keyAbsent item) with
    | some k0 =>
      constructor
      · intro h
        simp at h
      · rintro ⟨hall, -, -⟩
        have hmem := List.mem_of_find?_eq_some hf
        have htrue := List.find?_some hf
        rw [hall k0 hmem] at htrue
        simp at htrue
    | none =>
      have hall : ∀ k ∈ requiredKeys, keyAbsent item k = false := by
        intro k hk
        have := List.find?_eq_none.mp hf k hk
        simpa using this
      by_cases h6 : item.type ∈ validTypes.map some
      · simp [h6, hall]
      · constructor
        · intro h
          have hv : item.type = v := by
            rw [if_neg h6] at h
            simpa using h
          exact ⟨hall, hv.symm, h6⟩
        · rintro ⟨-, rfl, -⟩
          rw [if_neg h6]
  · rw [validate_item_eq]
    cases hf : requiredKeys.find? (keyAbsent item) with
    | some k0 =>
      constructor
      · intro h
        simp at h
      · rintro ⟨hall, -⟩
        have hmem := List.mem_of_find?_eq_some hf
        have htrue := List.find?_some hf
        rw [hall k0 hmem] at htrue
        simp at htrue
    | none =>
      have hall : ∀ k ∈ requiredKeys, keyAbsent item k = false := by
        intro k hk
        have := List.find?_eq_none.mp hf k hk
        simpa using this
      by_cases h6 : item.type ∈ validTypes.map some
      · simp [h6]
        exact hall
      · simp [h6, hall]

/-- Witness for **C6**: a missing `icon` key is reported as the first missing
key and propagated by `add` with the store unmodified; a bogus `type` yields
the invalid-kind error; an item with all keys present but empty string values
validates fine. -/
theorem C6_witness :
    (validate_item itemMissingIcon = .error (.missingKey "icon") ∧
     requiredKeys.find? (keyAbsent itemMissingIcon) = some "icon") ∧
    add (init 0) itemMissingIcon "g" =
      (init 0, itemMissingIcon, some (.missingKey "icon")) ∧
    validate_item itemBogusKind = .error (.invalidType (some "bogus")) ∧
    validate_item itemEmptyVals = .ok () :=
  ⟨⟨((C6_validation itemMissingIcon).2.1 "icon").mpr (by decide), by decide⟩,
   ((C6_validation itemMissingIcon).1 (init 0) "g" (.missingKey "icon") rfl).1,
   ((C6_validation itemBogusKind).2.2.1 (some "bogus")).mpr (by decide),
   (C6_validation itemEmptyVals).2.2.2.mpr (by decide)⟩

end Unmanic
